import Mathlib

/-!
Shallow embedding of the dual-thread runtime orchestrator of this repository
(src/app.rs and src/log.rs).  Rust f64 values are modelled as exact rationals
extended with the IEEE special values; the concurrent named-resource store
(the external gom crate) is modelled from the spec's contract in section 4.1.
-/

namespace GLE

/-- Resource keys produced by the id macro of the store crate.  Their exact
text is immaterial; what matters is that distinct constants are distinct keys. -/
def WINDOW : String := "@GLFW.WINODW"

def EVENT_MS : String := "@WINDOW.EVENT_MS"

def RENDER_MS : String := "@WINDOW.RENDER_MS"

def CATON : String := "@WINDOW.CATON"

def THREAD_NAMES : String := "@APP.THREAD_NAMES"

/-- IEEE-754 binary64 modelled as exact rationals plus the special values.
The divisions the claims exercise (1000/20, 1000/0) are exact in binary64, so
the rational model agrees with the machine arithmetic on them. -/
inductive Fl where
  | fin (q : ℚ)
  | inf
  | negInf
  | nan
deriving DecidableEq

/-- IEEE division for the cases arising in this development: finite operands,
with a nonzero dividend over zero yielding a signed infinity. -/
def Fl.div : Fl → Fl → Fl
  | .fin a, .fin b =>
      if b = 0 then (if a = 0 then .nan else if 0 < a then .inf else .negInf)
      else .fin (a / b)
  | _, _ => .nan

/-- IEEE strict less-than; comparisons involving NaN are false. -/
def Fl.lt : Fl → Fl → Bool
  | .fin a, .fin b => decide (a < b)
  | .fin _, .inf => true
  | .negInf, .fin _ => true
  | .negInf, .inf => true
  | _, _ => false

/-- The GLFW window resource as far as the orchestrator observes it. -/
structure PWindow where
  width : Int
  height : Int
  shouldClose : Bool
  visible : Bool
deriving DecidableEq

abbrev ThreadId := Nat

/-- The thread-name table (a HashMap in the source); insertion shadows and
lookup returns the most recent insertion, which observably matches the
replace-on-insert semantics of HashMap::insert. -/
abbrev NameTable := List (ThreadId × String)

def NameTable.getName : NameTable → ThreadId → Option String
  | [], _ => none
  | (t, n) :: rest, tid => if t = tid then some n else NameTable.getName rest tid

def NameTable.insertName (m : NameTable) (tid : ThreadId) (name : String) :
    NameTable :=
  (tid, name) :: m

/-- A value held by one slot of the named-resource store; the three value
types the runtime stores are windows, f64 numbers and the name table. -/
inductive RValue where
  | window (w : PWindow)
  | float (x : Fl)
  | names (m : NameTable)
deriving DecidableEq

abbrev Store := List (String × RValue)

def Store.lookup : Store → String → Option RValue
  | [], _ => none
  | (k', v) :: rest, k => if k' = k then some v else Store.lookup rest k

def Store.existsKey (s : Store) (k : String) : Bool := (s.lookup k).isSome

inductive RegErr where
  | alreadyExists
deriving DecidableEq

/-- Modelled from the spec: the named-resource store is the external gom crate,
whose source is not part of this repository.  Section 4.1 gives the contract
register(key, value) -> Result((), AlreadyExists): creates a new slot and
fails if the key is already occupied. -/
def Store.register (s : Store) (k : String) (v : RValue) : Except RegErr Store :=
  if s.existsKey k then .error .alreadyExists else .ok ((k, v) :: s)

/-- Replace the value stored under an occupied key (the write performed by the
store's with_mutate access inside the closure). -/
def Store.update : Store → String → RValue → Store
  | [], _, _ => []
  | (k', v') :: rest, k, v =>
      if k' = k then (k, v) :: rest else (k', v') :: Store.update rest k v

/-- Type-checked read of an f64 slot: absent key or a type mismatch is a
reported failure, never a cast. -/
def Store.withFloat (s : Store) (k : String) : Option Fl :=
  match s.lookup k with
  | some (.float x) => some x
  | _ => none

def Store.withWindow (s : Store) (k : String) : Option PWindow :=
  match s.lookup k with
  | some (.window w) => some w
  | _ => none

def Store.withNames (s : Store) (k : String) : Option NameTable :=
  match s.lookup k with
  | some (.names m) => some m
  | _ => none

/-- Type-checked mutate of the name-table slot: on a missing key or a type
mismatch nothing happens and the store is unchanged. -/
def Store.applyNames (s : Store) (k : String) (f : NameTable → NameTable) :
    Store :=
  match s.lookup k with
  | some (.names m) => s.update k (.names (f m))
  | _ => s

/-- App::event_ms (src/app.rs line 423): read of the control-loop timing slot,
defaulting to 0 when the slot is absent. -/
def event_ms (s : Store) : Fl := (s.withFloat EVENT_MS).getD (.fin 0)

/-- App::render_ms (src/app.rs line 431). -/
def render_ms (s : Store) : Fl := (s.withFloat RENDER_MS).getD (.fin 0)

/-- App::event_fps (src/app.rs line 439): 1000.0 divided by event_ms. -/
def event_fps (s : Store) : Fl := Fl.div (.fin 1000) (event_ms s)

/-- App::render_fps (src/app.rs line 447). -/
def render_fps (s : Store) : Fl := Fl.div (.fin 1000) (render_ms s)

/-- App::window_size (src/app.rs line 415) reads the window slot and unwraps:
the returned Option is none exactly when the source's unwrap would panic. -/
def window_size (s : Store) : Option (Int × Int) :=
  (s.withWindow WINDOW).map (fun w => (w.width, w.height))

/-- App::_lazy_init_thread_names, with the unwrapped register result made
explicit; the unwrap is proved to never fire. -/
def lazyInitThreadNamesE (s : Store) : Except RegErr Store :=
  if s.existsKey THREAD_NAMES then .ok s
  else s.register THREAD_NAMES (.names [])

def lazyInitThreadNames (s : Store) : Store :=
  match lazyInitThreadNamesE s with
  | .ok s' => s'
  | .error _ => s

/-- App::set_current_thread_name (src/app.rs lines 471-477). -/
def setCurrentThreadName (s : Store) (tid : ThreadId) (name : String) : Store :=
  (lazyInitThreadNames s).applyNames THREAD_NAMES
    (fun m => m.insertName tid name)

/-- App::_get_thread_name (src/app.rs lines 479-485); the question-mark
operator flattens the two Option layers. -/
def getThreadName (s : Store) (tid : ThreadId) : Option String :=
  ((lazyInitThreadNames s).withNames THREAD_NAMES).bind
    (fun m => m.getName tid)

/-- The Debug rendering of std::thread::ThreadId used by the fallback label. -/
def threadIdRepr (tid : ThreadId) : String :=
  "ThreadId(" ++ toString tid ++ ")"

/-- App::current_thread_name (src/app.rs lines 491-493). -/
def currentThreadName (s : Store) (tid : ThreadId) : String :=
  (getThreadName s tid).getD ("Thread-" ++ threadIdRepr tid)

/-- The log records app.rs emits, with their interpolated numeric arguments
kept structured. -/
inductive AppLog where
  | duplicateInstance
  | stallWarn (dt : ℚ) (threshold : Fl)
deriving DecidableEq

structure BuildCfg where
  width : Int
  height : Int
deriving DecidableEq

/-- The window is created hidden (WindowHint Visible false). -/
def initialWindow (cfg : BuildCfg) : PWindow :=
  { width := cfg.width, height := cfg.height, shouldClose := false
    visible := false }

/-- First steps of AppBuilder::build (src/app.rs lines 248-265): name the
calling thread, guard against a second instance by logging an error and
panicking, otherwise create the hidden window and register it.  A .error
result models the process abort. -/
def buildStart (cfg : BuildCfg) (s : Store) (tid : ThreadId) :
    List AppLog × Except String Store :=
  let s1 := setCurrentThreadName s tid "MainThread"
  if s1.existsKey WINDOW then
    ([.duplicateInstance], .error "重复创建 App 实例")
  else
    match s1.register WINDOW (.window (initialWindow cfg)) with
    | .ok s2 => ([], .ok s2)
    | .error _ => ([], .error "unreachable")

/-- Default stall threshold of 16.67 ms used when the CATON slot is absent. -/
def defaultCaton : Fl := .fin (1667 / 100)

structure RenderIter where
  logs : List AppLog
  publish : Except RegErr Store

/-- One iteration of the render loop up to the timing publish (src/app.rs
lines 329-336): compute the elapsed time, read the stall threshold with its
default, warn exactly when the elapsed time exceeds it, then publish the
elapsed time to the render-timing slot via register, whose result the source
unwraps. -/
def renderIteration (s : Store) (nowMs lastMs : ℚ) : RenderIter :=
  let dt := nowMs - lastMs
  let caton := (s.withFloat CATON).getD defaultCaton
  { logs := if Fl.lt caton (.fin dt) then [.stallWarn dt caton] else []
    publish := s.register RENDER_MS (.float (.fin dt)) }

/-- The control-loop timing publish in App::exec (src/app.rs line 395). -/
def eventIterationPublish (s : Store) (nowMs lastMs : ℚ) :
    Except RegErr Store :=
  s.register EVENT_MS (.float (.fin (nowMs - lastMs)))

/-- Log levels of src/log.rs with their derived order. -/
inductive Level where
  | debug
  | info
  | warn
  | error
deriving DecidableEq

def Level.toNat : Level → Nat
  | .debug => 0
  | .info => 1
  | .warn => 2
  | .error => 3

structure Logger where
  level : Level
  file : Option String
deriving DecidableEq

def Logger.new : Logger := { level := .info, file := none }

inductive Dest where
  | toFile (path : String)
  | stdout
  | stderr
deriving DecidableEq

/-- Rust right-justifying format padding to a field of at least w characters. -/
def padLeft (w : Nat) (s : String) : String :=
  String.mk (List.replicate (w - s.length) ' ') ++ s

/-- Rust left-justifying format padding. -/
def padRight (w : Nat) (s : String) : String :=
  s ++ String.mk (List.replicate (w - s.length) ' ')

/-- The four file-branch format strings of Logger::log (src/log.rs 42-45). -/
def fileLine (timestamp owner message : String) : Level → String
  | .debug =>
      timestamp ++ " [DEBUG] " ++ padLeft 60 owner ++ " |: " ++ message ++ "\n"
  | .info =>
      timestamp ++ " [INFO]  " ++ padLeft 60 owner ++ " |: " ++ message ++ "\n"
  | .warn =>
      timestamp ++ " [WARN]  " ++ padLeft 60 owner ++ " |: " ++ message ++ "\n"
  | .error =>
      timestamp ++ " [ERROR] " ++ padLeft 60 owner ++ " |: " ++ message ++ "\n"

def consoleTag : Level → String
  | .debug => "[DEBUG]"
  | .info => "[INFO]"
  | .warn => "[WARN]"
  | .error => "[ERROR]"

/-- The literal segment between timestamp and owner in each file-branch
format string, spacing included. -/
def fileTagLit : Level → String
  | .debug => " [DEBUG] "
  | .info => " [INFO]  "
  | .warn => " [WARN]  "
  | .error => " [ERROR] "

/-- Console line of Logger::log (src/log.rs 56-89); the ANSI styling applied
by the colored crate wraps the text without changing it and is abstracted. -/
def consoleLine (timestamp owner message : String) (lv : Level) : String :=
  timestamp ++ " " ++ padRight 7 (consoleTag lv) ++ " " ++ padLeft 60 owner
    ++ " |: " ++ message

/-- Logger::log (src/log.rs 35-97): below the minimum level nothing is
written; otherwise exactly one line goes to the configured file in append
mode, or to the console with errors on stderr and the rest on stdout. -/
def Logger.log (lg : Logger) (lv : Level) (owner message timestamp : String) :
    Option (Dest × String) :=
  if lg.level.toNat ≤ lv.toNat then
    match lg.file with
    | some path => some (.toFile path, fileLine timestamp owner message lv)
    | none =>
        some (if lv = .error then .stderr else .stdout,
              consoleLine timestamp owner message lv)
  else none

/-- Top-level log function (src/log.rs 126-130): augments the owner with the
calling thread's current name before delegating to the logger. -/
def logCall (lg : Logger) (lv : Level) (owner message timestamp : String)
    (s : Store) (tid : ThreadId) : Option (Dest × String) :=
  lg.log lv (owner ++ " @" ++ padRight 20 (currentThreadName s tid))
    message timestamp

/-- Observable events of AppBuilder::build and of the spawned render thread,
in the order the source performs them. -/
inductive Ev where
  | guardCheck
  | createWindow
  | registerWindow
  | installCallbacks
  | spawnRender
  | recvReady
  | showWindow
  | renderThreadName
  | makeContextCurrent
  | loadGl
  | renderInitDone
  | sendReady
  | enterRenderLoop
deriving DecidableEq

/-- Program order of the thread calling build (src/app.rs 249-350):
renderInitDone and sendReady happen on the other thread; the caller blocks in
recv on the startup-ready channel and only then shows the window. -/
def buildMainEvents : List Ev :=
  [.guardCheck, .createWindow, .registerWindow, .installCallbacks,
   .spawnRender, .recvReady, .showWindow]

/-- Program order of the spawned render thread (src/app.rs 318-327):
renderInitDone marks the return of the one-time render-init hook, after which
the startup-ready signal is sent and the frame loop entered. -/
def renderThreadEvents : List Ev :=
  [.renderThreadName, .makeContextCurrent, .loadGl, .renderInitDone,
   .sendReady, .enterRenderLoop]

/-- Index of the first occurrence of an event in a trace. -/
def pos : List Ev → Ev → Nat
  | [], _ => 0
  | x :: rest, e => if x = e then 0 else pos rest e + 1

/-- An execution of build together with its render thread: an interleaving of
the two program orders in which the blocking channel receive happens after the
matching send, and no thread event is duplicated.  The spawn of the render
thread precedes everything that thread does. -/
def ValidBuildTrace (t : List Ev) : Prop :=
  t.Nodup ∧ buildMainEvents.Sublist t ∧ renderThreadEvents.Sublist t ∧
    pos t .sendReady < pos t .recvReady ∧
    pos t .spawnRender < pos t .renderThreadName

/-- The optional user hooks a builder carries for the seven window callbacks
(src/app.rs 40-46); a FnMut hook is modelled as a transformer of an abstract
user state.  Key, scancode, Action, Modifiers and MouseButton are opaque to
the shims and modelled as integers. -/
structure Hooks (σ : Type) where
  windowSizeCallback : Option (Int → Int → σ → σ)
  windowPosCallback : Option (Int → Int → σ → σ)
  windowCloseCallback : Option (σ → σ)
  keyCallback : Option (Int → Int → Int → Int → σ → σ)
  mouseButtonCallback : Option (Int → Int → Int → σ → σ)
  cursorPosCallback : Option (ℚ → ℚ → σ → σ)
  scrollCallback : Option (ℚ → ℚ → σ → σ)

/-- A backend-delivered window event with its arguments. -/
inductive WinEvent where
  | size (w h : Int)
  | pos (x y : Int)
  | close
  | key (k scancode action mods : Int)
  | mouseButton (button action mods : Int)
  | cursorPos (x y : ℚ)
  | scroll (x y : ℚ)
deriving DecidableEq

/-- The forwarding shims installed by build (src/app.rs 275-311): each shim
checks whether the corresponding user hook is present and, if so, invokes it
with the backend-supplied arguments; an absent hook leaves the state alone. -/
def dispatchShim {σ : Type} (hk : Hooks σ) (e : WinEvent) (st : σ) : σ :=
  match e with
  | .size w h =>
      match hk.windowSizeCallback with
      | some f => f w h st
      | none => st
  | .pos x y =>
      match hk.windowPosCallback with
      | some f => f x y st
      | none => st
  | .close =>
      match hk.windowCloseCallback with
      | some f => f st
      | none => st
  | .key k s a m =>
      match hk.keyCallback with
      | some f => f k s a m st
      | none => st
  | .mouseButton b a m =>
      match hk.mouseButtonCallback with
      | some f => f b a m st
      | none => st
  | .cursorPos x y =>
      match hk.cursorPosCallback with
      | some f => f x y st
      | none => st
  | .scroll x y =>
      match hk.scrollCallback with
      | some f => f x y st
      | none => st

/-- One string occurs contiguously inside another. -/
def substrOf (a s : String) : Prop := a.data <:+: s.data

/-- The THREAD_NAMES slot, when present, holds a name table; this is the shape
the runtime itself maintains (only set_current_thread_name and the lazy init
ever write that key). -/
def namesWellTyped (s : Store) : Bool :=
  match s.lookup THREAD_NAMES with
  | some (.names _) => true
  | none => true
  | _ => false

/-! Helper lemmas about the store. -/

theorem Store.lookup_update_ne (s : Store) (k k' : String) (v : RValue)
    (h : k' ≠ k) : (s.update k v).lookup k' = s.lookup k' := by
  induction s with
  | nil => rfl
  | cons p rest ih =>
    obtain ⟨a, b⟩ := p
    by_cases hak : a = k
    · subst hak
      simp [Store.update, Store.lookup, Ne.symm h]
    · by_cases hak' : a = k'
      · simp [Store.update, Store.lookup, hak, hak', h]
      · simp [Store.update, Store.lookup, hak, hak', ih]

theorem Store.lookup_update_self (s : Store) (k : String) (v w : RValue)
    (h : s.lookup k = some w) : (s.update k v).lookup k = some v := by
  induction s with
  | nil => simp [Store.lookup] at h
  | cons p rest ih =>
    obtain ⟨a, b⟩ := p
    by_cases hak : a = k
    · subst hak
      simp [Store.update, Store.lookup]
    · simp [Store.lookup, hak] at h
      simp [Store.update, Store.lookup, hak, ih h]

theorem lazyInitE_ok (s : Store) :
    lazyInitThreadNamesE s = .ok (lazyInitThreadNames s) := by
  unfold lazyInitThreadNames lazyInitThreadNamesE Store.register
  cases hx : s.existsKey THREAD_NAMES <;> simp [hx]

theorem lookup_lazyInit_ne (s : Store) (k : String) (h : THREAD_NAMES ≠ k) :
    (lazyInitThreadNames s).lookup k = s.lookup k := by
  unfold lazyInitThreadNames lazyInitThreadNamesE Store.register
  cases hx : s.existsKey THREAD_NAMES <;> simp [hx, Store.lookup, h]

theorem lazyInit_names (s : Store) (h : namesWellTyped s = true) :
    ∃ m, (lazyInitThreadNames s).lookup THREAD_NAMES = some (.names m) := by
  unfold namesWellTyped at h
  unfold lazyInitThreadNames lazyInitThreadNamesE Store.register Store.existsKey
  cases hx : s.lookup THREAD_NAMES with
  | none => exact ⟨[], by simp [hx, Store.lookup]⟩
  | some v =>
    cases v with
    | window w => rw [hx] at h; simp at h
    | float x => rw [hx] at h; simp at h
    | names m => exact ⟨m, by simp [hx]⟩

theorem applyNames_of_names (s : Store) (k : String)
    (f : NameTable → NameTable) (m : NameTable)
    (h : s.lookup k = some (.names m)) :
    s.applyNames k f = s.update k (.names (f m)) := by
  unfold Store.applyNames
  rw [h]

theorem lookup_applyNames_ne (s : Store) (k k' : String)
    (f : NameTable → NameTable) (h : k' ≠ k) :
    (s.applyNames k f).lookup k' = s.lookup k' := by
  unfold Store.applyNames
  cases hx : s.lookup k with
  | none => rfl
  | some v =>
    cases v with
    | window w => rfl
    | float x => rfl
    | names m => exact Store.lookup_update_ne s k k' _ h

theorem lookup_setName_ne (s : Store) (tid : ThreadId) (n k : String)
    (h : k ≠ THREAD_NAMES) :
    (setCurrentThreadName s tid n).lookup k = s.lookup k := by
  unfold setCurrentThreadName
  rw [lookup_applyNames_ne _ _ _ _ h, lookup_lazyInit_ne _ _ (Ne.symm h)]

/-! Helper lemmas about substrings. -/

theorem substrOf_self (a : String) : substrOf a a := ⟨[], [], by simp⟩

theorem substrOf_appendLeft (x : String) {a y : String} (h : substrOf a y) :
    substrOf a (x ++ y) := by
  obtain ⟨s, t, e⟩ := h
  exact ⟨x.data ++ s, t, by simp [String.data_append, ← e]⟩

theorem substrOf_appendRight (y : String) {a x : String} (h : substrOf a x) :
    substrOf a (x ++ y) := by
  obtain ⟨s, t, e⟩ := h
  exact ⟨s, t ++ y.data, by simp [String.data_append, ← e]⟩

theorem substrOf_trans {a b c : String} (h1 : substrOf a b)
    (h2 : substrOf b c) : substrOf a c :=
  List.IsInfix.trans h1 h2

theorem substrOf_padRight (w : Nat) (s : String) : substrOf s (padRight w s) := by
  unfold padRight
  exact substrOf_appendRight _ (substrOf_self s)

theorem substr_pieces6 (x1 x2 x3 x4 x5 x6 : String) :
    substrOf x1 (x1 ++ x2 ++ x3 ++ x4 ++ x5 ++ x6)
    ∧ substrOf x2 (x1 ++ x2 ++ x3 ++ x4 ++ x5 ++ x6)
    ∧ substrOf x3 (x1 ++ x2 ++ x3 ++ x4 ++ x5 ++ x6)
    ∧ substrOf x4 (x1 ++ x2 ++ x3 ++ x4 ++ x5 ++ x6)
    ∧ substrOf x5 (x1 ++ x2 ++ x3 ++ x4 ++ x5 ++ x6)
    ∧ substrOf x6 (x1 ++ x2 ++ x3 ++ x4 ++ x5 ++ x6) := by
  refine ⟨⟨[], (x2 ++ x3 ++ x4 ++ x5 ++ x6).data, ?_⟩,
    ⟨x1.data, (x3 ++ x4 ++ x5 ++ x6).data, ?_⟩,
    ⟨(x1 ++ x2).data, (x4 ++ x5 ++ x6).data, ?_⟩,
    ⟨(x1 ++ x2 ++ x3).data, (x5 ++ x6).data, ?_⟩,
    ⟨(x1 ++ x2 ++ x3 ++ x4).data, x6.data, ?_⟩,
    ⟨(x1 ++ x2 ++ x3 ++ x4 ++ x5).data, [], ?_⟩⟩ <;>
  simp [String.data_append]

theorem substr_pieces7 (x1 x2 x3 x4 x5 x6 x7 : String) :
    substrOf x1 (x1 ++ x2 ++ x3 ++ x4 ++ x5 ++ x6 ++ x7)
    ∧ substrOf x3 (x1 ++ x2 ++ x3 ++ x4 ++ x5 ++ x6 ++ x7)
    ∧ substrOf x5 (x1 ++ x2 ++ x3 ++ x4 ++ x5 ++ x6 ++ x7)
    ∧ substrOf x7 (x1 ++ x2 ++ x3 ++ x4 ++ x5 ++ x6 ++ x7) := by
  refine ⟨⟨[], (x2 ++ x3 ++ x4 ++ x5 ++ x6 ++ x7).data, ?_⟩,
    ⟨(x1 ++ x2).data, (x4 ++ x5 ++ x6 ++ x7).data, ?_⟩,
    ⟨(x1 ++ x2 ++ x3 ++ x4).data, (x6 ++ x7).data, ?_⟩,
    ⟨(x1 ++ x2 ++ x3 ++ x4 ++ x5 ++ x6).data, [], ?_⟩⟩ <;>
  simp [String.data_append]

/-! Helper lemma about event positions in traces. -/

theorem pos_lt_of_sublist : ∀ {t : List Ev} {x y : Ev},
    [x, y].Sublist t → t.Nodup → pos t x < pos t y := by
  intro t
  induction t with
  | nil => intro x y h _; cases h
  | cons c rest ih =>
    intro x y h hn
    rw [List.nodup_cons] at hn
    obtain ⟨hc, hn'⟩ := hn
    cases h with
    | cons _ h' =>
      have ha : x ∈ rest := h'.subset (by simp)
      have hb : y ∈ rest := h'.subset (by simp)
      have hca : c ≠ x := fun e => hc (e ▸ ha)
      have hcb : c ≠ y := fun e => hc (e ▸ hb)
      simpa [pos, hca, hcb] using ih h' hn'
    | cons₂ _ h' =>
      have hb : y ∈ rest := h'.subset (by simp)
      have hab : c ≠ y := fun e => hc (e ▸ hb)
      simp [pos, hab]

/-- C2.  Single-instance guard: when a window resource is already registered
under the window key, build logs an error and panics with the diagnostic, and
the pre-existing window slot is left untouched (never silently replaced). -/
theorem c2_duplicate_instance_guard (cfg : BuildCfg) (s : Store)
    (tid : ThreadId) (h : s.existsKey WINDOW = true) :
    buildStart cfg s tid
      = ([AppLog.duplicateInstance], .error "重复创建 App 实例")
    ∧ (setCurrentThreadName s tid "MainThread").lookup WINDOW
      = s.lookup WINDOW := by
  have hw : (setCurrentThreadName s tid "MainThread").lookup WINDOW
      = s.lookup WINDOW :=
    lookup_setName_ne s tid "MainThread" WINDOW (by decide)
  refine ⟨?_, hw⟩
  have hex : (setCurrentThreadName s tid "MainThread").existsKey WINDOW
      = true := by
    unfold Store.existsKey at h ⊢
    rw [hw]
    exact h
  unfold buildStart
  simp [hex]

/-- Witness for C2 at a store already holding a window resource. -/
theorem c2_duplicate_instance_guard_witness :
    buildStart ⟨800, 600⟩
        [(WINDOW, RValue.window ⟨800, 600, false, false⟩)] 0
      = ([AppLog.duplicateInstance], .error "重复创建 App 实例") :=
  (c2_duplicate_instance_guard ⟨800, 600⟩
    [(WINDOW, RValue.window ⟨800, 600, false, false⟩)] 0 (by decide)).1

/-- C9.  current_thread_name returns the name most recently set for the
calling thread; when none was ever set it returns the label synthesized from
the thread id; and the lazily-created table makes both paths total — in
particular the unwrap inside the lazy initialization never fires. -/
theorem c9_current_thread_name (s : Store) (tid : ThreadId) (name : String)
    (h : namesWellTyped s = true) :
    currentThreadName (setCurrentThreadName s tid name) tid = name
    ∧ (getThreadName s tid = none →
        currentThreadName s tid = "Thread-" ++ threadIdRepr tid)
    ∧ lazyInitThreadNamesE s = .ok (lazyInitThreadNames s) := by
  refine ⟨?_, ?_, lazyInitE_ok s⟩
  · obtain ⟨m, hm⟩ := lazyInit_names s h
    have hset : setCurrentThreadName s tid name
        = (lazyInitThreadNames s).update THREAD_NAMES
            (.names (m.insertName tid name)) := by
      unfold setCurrentThreadName
      exact applyNames_of_names _ _ _ _ hm
    have hlook : (setCurrentThreadName s tid name).lookup THREAD_NAMES
        = some (.names (m.insertName tid name)) := by
      rw [hset]
      exact Store.lookup_update_self _ _ _ _ hm
    have hex : (setCurrentThreadName s tid name).existsKey THREAD_NAMES
        = true := by
      unfold Store.existsKey
      rw [hlook]
      rfl
    unfold currentThreadName getThreadName lazyInitThreadNames
      lazyInitThreadNamesE
    simp [hex, Store.withNames, hlook, NameTable.insertName, NameTable.getName]
  · intro hget
    unfold currentThreadName
    rw [hget]
    rfl

/-- Witness for C9: a set name is read back, and an unnamed thread gets the
synthesized label. -/
theorem c9_current_thread_name_witness :
    currentThreadName (setCurrentThreadName [] 5 "RenderThread") 5
      = "RenderThread"
    ∧ currentThreadName [] 7 = "Thread-ThreadId(7)" := by
  constructor
  · exact (c9_current_thread_name [] 5 "RenderThread" (by decide)).1
  · have h := (c9_current_thread_name [] 7 "x" (by decide)).2.1 rfl
    rw [h]
    decide

/-- C4 counterexample: when no duration has ever been published, the rate
query divides 1000 by the duration query's default 0 and returns positive
infinity, not the sentinel 0 the claim states. -/
theorem c4_rate_counterexample :
    event_fps ([] : Store) = Fl.inf ∧ event_fps ([] : Store) ≠ Fl.fin 0 := by
  constructor <;> decide

/-- C4 as amended: for a published nonzero duration d the rate query returns
1000 / d; when no duration has ever been published the duration queries
return the sentinel 0, and the rate queries divide by that zero and return
positive infinity. -/
theorem c4_rate_derivation (s : Store) (d : ℚ) (hd : d ≠ 0) :
    (s.withFloat EVENT_MS = some (.fin d) → event_fps s = .fin (1000 / d))
    ∧ (s.withFloat RENDER_MS = some (.fin d) → render_fps s = .fin (1000 / d))
    ∧ event_ms ([] : Store) = .fin 0 ∧ render_ms ([] : Store) = .fin 0
    ∧ event_fps ([] : Store) = Fl.inf ∧ render_fps ([] : Store) = Fl.inf := by
  refine ⟨fun h => ?_, fun h => ?_, rfl, rfl, by decide, by decide⟩ <;>
  simp [event_fps, render_fps, event_ms, render_ms, h, Fl.div, hd]

/-- Witness for C4: a published duration of 20 ms yields a rate of 50. -/
theorem c4_rate_derivation_witness :
    event_fps [(EVENT_MS, RValue.float (Fl.fin 20))] = Fl.fin 50 := by
  have h := (c4_rate_derivation [(EVENT_MS, RValue.float (Fl.fin 20))] 20
    (by norm_num)).1 rfl
  rw [show ((1000 : ℚ) / 20) = 50 from by norm_num] at h
  exact h

/-- C5 counterexample: on a store with no window slot the window-size read
yields nothing at all — the source then unwraps it and panics instead of
returning a default. -/
theorem c5_window_size_counterexample :
    window_size ([] : Store) = none
    ∧ Store.withWindow ([] : Store) WINDOW = none :=
  ⟨rfl, rfl⟩

/-- C5 as amended: the two timing queries are pure reads defaulting to 0 when
their slot is absent, but the window-size query is a pure read that panics
(unwraps none) exactly when the window slot is absent. -/
theorem c5_default_queries (s : Store) :
    (s.withFloat EVENT_MS = none → event_ms s = .fin 0)
    ∧ (s.withFloat RENDER_MS = none → render_ms s = .fin 0)
    ∧ (window_size s = none ↔ s.withWindow WINDOW = none) := by
  refine ⟨fun h => ?_, fun h => ?_, ?_⟩
  · simp [event_ms, h]
  · simp [render_ms, h]
  · simp [window_size]

/-- C3.  Evaluation of the per-iteration timing publish under the store's
register contract: the first iteration's publish succeeds, but the second
iteration's register returns AlreadyExists — so the source's unwrap panics —
and the slot still holds the first sample, not the most recent one.  The
control-loop publish fails the same way. -/
theorem c3_second_publish_rejected :
    (renderIteration ([] : Store) 10 5).publish
      = .ok [(RENDER_MS, RValue.float (Fl.fin 5))]
    ∧ (renderIteration [(RENDER_MS, RValue.float (Fl.fin 5))] 17 10).publish
      = .error .alreadyExists
    ∧ eventIterationPublish [(EVENT_MS, RValue.float (Fl.fin 5))] 17 10
      = .error .alreadyExists
    ∧ Store.lookup [(RENDER_MS, RValue.float (Fl.fin 5))] RENDER_MS
      = some (RValue.float (Fl.fin 5)) := by
  have h5 : (10 : ℚ) - 5 = 5 := by norm_num
  have h7 : (17 : ℚ) - 10 = 7 := by norm_num
  refine ⟨?_, ?_, ?_, by decide⟩ <;>
  simp [renderIteration, eventIterationPublish, h5, h7, Store.register,
    Store.existsKey, Store.lookup]

/-- C6.  Stall-warning fidelity: each render iteration warns exactly once,
with the measured and threshold values, when the elapsed time exceeds the
threshold read from its slot (16.67 when the slot is absent), warns not at
all otherwise, and publishes the timing either way; a simulated 30 ms frame
against the default threshold warns once, a 10 ms frame does not. -/
theorem c6_stall_warning (s : Store) (nowMs lastMs : ℚ) :
    (Fl.lt ((s.withFloat CATON).getD defaultCaton) (.fin (nowMs - lastMs))
        = true →
      (renderIteration s nowMs lastMs).logs
        = [AppLog.stallWarn (nowMs - lastMs)
            ((s.withFloat CATON).getD defaultCaton)])
    ∧ (Fl.lt ((s.withFloat CATON).getD defaultCaton) (.fin (nowMs - lastMs))
        = false →
      (renderIteration s nowMs lastMs).logs = [])
    ∧ (renderIteration s nowMs lastMs).publish
        = s.register RENDER_MS (.float (.fin (nowMs - lastMs)))
    ∧ (s.withFloat CATON = none →
        (s.withFloat CATON).getD defaultCaton = Fl.fin (1667 / 100))
    ∧ (renderIteration ([] : Store) 30 0).logs
        = [AppLog.stallWarn 30 defaultCaton]
    ∧ (renderIteration ([] : Store) 10 0).logs = [] := by
  refine ⟨fun h => ?_, fun h => ?_, rfl, fun h => ?_, ?_, ?_⟩
  · simp [renderIteration, h]
  · simp [renderIteration, h]
  · simp [h, defaultCaton]
  · have hlt : Fl.lt defaultCaton (.fin (30 : ℚ)) = true := by
      simp [Fl.lt, defaultCaton]
      norm_num
    simp [renderIteration, Store.withFloat, Store.lookup, hlt]
  · have hlt : Fl.lt defaultCaton (.fin (10 : ℚ)) = false := by
      simp [Fl.lt, defaultCaton]
      norm_num
    simp [renderIteration, Store.withFloat, Store.lookup, hlt]

/-- Witness for C6 exercising both branches on concrete stores. -/
theorem c6_stall_warning_witness :
    (renderIteration [(CATON, RValue.float (Fl.fin 10))] 30 0).logs
      = [AppLog.stallWarn 30 (Fl.fin 10)]
    ∧ (renderIteration ([] : Store) 10 0).logs = [] := by
  constructor
  · have h := (c6_stall_warning [(CATON, RValue.float (Fl.fin 10))] 30 0).1
    rw [show ((30 : ℚ) - 0) = 30 from by norm_num] at h
    refine (h ?_).trans rfl
    simp [Store.withFloat, Store.lookup, Fl.lt]
    norm_num
  · exact (c6_stall_warning ([] : Store) 0 0).2.2.2.2.2

/-- C10.  With no log file configured, a record that passes the level filter
goes to stderr exactly when its level is Error, and to stdout for the other
levels. -/
theorem c10_console_error_to_stderr (minLv lv : Level)
    (owner message timestamp : String) (h : minLv.toNat ≤ lv.toNat) :
    (lv = .error → Logger.log ⟨minLv, none⟩ lv owner message timestamp
        = some (.stderr, consoleLine timestamp owner message lv))
    ∧ (lv ≠ .error → Logger.log ⟨minLv, none⟩ lv owner message timestamp
        = some (.stdout, consoleLine timestamp owner message lv)) := by
  constructor
  · intro he
    subst he
    simp [Logger.log, h]
  · intro he
    simp [Logger.log, h, he]

/-- Witness for C10: an error record goes to stderr, a warn record to
stdout. -/
theorem c10_console_error_to_stderr_witness :
    Logger.log ⟨Level.info, none⟩ .error "o" "m" "t"
      = some (.stderr, consoleLine "t" "o" "m" .error)
    ∧ Logger.log ⟨Level.info, none⟩ .warn "o" "m" "t"
      = some (.stdout, consoleLine "t" "o" "m" .warn) :=
  ⟨(c10_console_error_to_stderr .info .error "o" "m" "t" (by decide)).1 rfl,
   (c10_console_error_to_stderr .info .warn "o" "m" "t" (by decide)).2
     (by decide)⟩

/-- C8.  Each of the seven callback shims invokes the corresponding user hook
with exactly the backend-supplied arguments when the hook is present, and
leaves the state untouched when it is absent. -/
theorem c8_callback_shims {σ : Type} (hk : Hooks σ) (st : σ) :
    (∀ f w h, hk.windowSizeCallback = some f →
      dispatchShim hk (.size w h) st = f w h st)
    ∧ (hk.windowSizeCallback = none →
      ∀ w h, dispatchShim hk (.size w h) st = st)
    ∧ (∀ f x y, hk.windowPosCallback = some f →
      dispatchShim hk (.pos x y) st = f x y st)
    ∧ (hk.windowPosCallback = none →
      ∀ x y, dispatchShim hk (.pos x y) st = st)
    ∧ (∀ f, hk.windowCloseCallback = some f →
      dispatchShim hk .close st = f st)
    ∧ (hk.windowCloseCallback = none → dispatchShim hk .close st = st)
    ∧ (∀ f k sc a m, hk.keyCallback = some f →
      dispatchShim hk (.key k sc a m) st = f k sc a m st)
    ∧ (hk.keyCallback = none →
      ∀ k sc a m, dispatchShim hk (.key k sc a m) st = st)
    ∧ (∀ f b a m, hk.mouseButtonCallback = some f →
      dispatchShim hk (.mouseButton b a m) st = f b a m st)
    ∧ (hk.mouseButtonCallback = none →
      ∀ b a m, dispatchShim hk (.mouseButton b a m) st = st)
    ∧ (∀ f x y, hk.cursorPosCallback = some f →
      dispatchShim hk (.cursorPos x y) st = f x y st)
    ∧ (hk.cursorPosCallback = none →
      ∀ x y, dispatchShim hk (.cursorPos x y) st = st)
    ∧ (∀ f x y, hk.scrollCallback = some f →
      dispatchShim hk (.scroll x y) st = f x y st)
    ∧ (hk.scrollCallback = none →
      ∀ x y, dispatchShim hk (.scroll x y) st = st) := by
  refine ⟨fun f w h hf => ?_, fun hn w h => ?_, fun f x y hf => ?_,
    fun hn x y => ?_, fun f hf => ?_, fun hn => ?_,
    fun f k sc a m hf => ?_, fun hn k sc a m => ?_,
    fun f b a m hf => ?_, fun hn b a m => ?_, fun f x y hf => ?_,
    fun hn x y => ?_, fun f x y hf => ?_, fun hn x y => ?_⟩ <;>
  simp [dispatchShim, *]

/-- C7.  Logger level filter: a record strictly below the minimum level
produces no output; otherwise exactly one line — containing the timestamp,
the bracketed level tag, the right-justified owner field and the message — is
written, to the configured file when one is set and to the console
otherwise. -/
theorem c7_level_filter_and_format (lg : Logger) (lv : Level)
    (owner message timestamp : String) :
    (lv.toNat < lg.level.toNat → lg.log lv owner message timestamp = none)
    ∧ (lg.level.toNat ≤ lv.toNat → ∃ line,
        lg.log lv owner message timestamp
          = some (match lg.file with
                  | some path => Dest.toFile path
                  | none => if lv = .error then Dest.stderr else Dest.stdout,
                  line)
        ∧ substrOf timestamp line ∧ substrOf (consoleTag lv) line
        ∧ substrOf (padLeft 60 owner) line ∧ substrOf message line) := by
  constructor
  · intro h
    have hlt : ¬ lg.level.toNat ≤ lv.toNat := by omega
    simp [Logger.log, hlt]
  · intro h
    cases hf : lg.file with
    | some path =>
      have hfl : fileLine timestamp owner message lv
          = timestamp ++ fileTagLit lv ++ padLeft 60 owner ++ " |: "
            ++ message ++ "\n" := by
        cases lv <;> rfl
      have htag : substrOf (consoleTag lv) (fileTagLit lv) := by
        unfold substrOf
        cases lv <;> decide
      refine ⟨fileLine timestamp owner message lv,
        by simp [Logger.log, h, hf], ?_, ?_, ?_, ?_⟩
      · rw [hfl]
        exact (substr_pieces6 timestamp (fileTagLit lv) (padLeft 60 owner)
          " |: " message "\n").1
      · rw [hfl]
        exact substrOf_trans htag (substr_pieces6 timestamp (fileTagLit lv)
          (padLeft 60 owner) " |: " message "\n").2.1
      · rw [hfl]
        exact (substr_pieces6 timestamp (fileTagLit lv) (padLeft 60 owner)
          " |: " message "\n").2.2.1
      · rw [hfl]
        exact (substr_pieces6 timestamp (fileTagLit lv) (padLeft 60 owner)
          " |: " message "\n").2.2.2.2.1
    | none =>
      refine ⟨consoleLine timestamp owner message lv,
        by simp [Logger.log, h, hf], ?_, ?_, ?_, ?_⟩
      · exact (substr_pieces7 timestamp " " (padRight 7 (consoleTag lv)) " "
          (padLeft 60 owner) " |: " message).1
      · exact substrOf_trans (substrOf_padRight 7 (consoleTag lv))
          (substr_pieces7 timestamp " " (padRight 7 (consoleTag lv)) " "
            (padLeft 60 owner) " |: " message).2.1
      · exact (substr_pieces7 timestamp " " (padRight 7 (consoleTag lv)) " "
          (padLeft 60 owner) " |: " message).2.2.1
      · exact (substr_pieces7 timestamp " " (padRight 7 (consoleTag lv)) " "
          (padLeft 60 owner) " |: " message).2.2.2

/-- Witness for C7: with the default logger a debug record is filtered out
and a warn record produces one stdout line containing the bracketed tag. -/
theorem c7_level_filter_and_format_witness :
    Logger.new.log .debug "o" "m" "t" = none
    ∧ ∃ line, Logger.new.log .warn "o" "m" "t" = some (Dest.stdout, line)
        ∧ substrOf "[WARN]" line := by
  constructor
  · exact (c7_level_filter_and_format Logger.new .debug "o" "m" "t").1
      (by decide)
  · obtain ⟨line, he, hts, htag, hown, hmsg⟩ :=
      (c7_level_filter_and_format Logger.new .warn "o" "m" "t").2 (by decide)
    exact ⟨line, he, htag⟩

/-- C1.  Startup handshake: in every interleaving of build with its render
thread that respects the two program orders and the channel (a receive
happens after the matching send), the window is shown strictly after the
render-init hook has returned, and strictly after the startup-ready signal
was sent. -/
theorem c1_startup_handshake (t : List Ev) (h : ValidBuildTrace t) :
    pos t .renderInitDone < pos t .showWindow
    ∧ pos t .sendReady < pos t .showWindow := by
  obtain ⟨hn, hmain, hrender, hchan, _⟩ := h
  have h1 : pos t .renderInitDone < pos t .sendReady :=
    pos_lt_of_sublist
      (List.Sublist.trans
        (by decide : [Ev.renderInitDone, Ev.sendReady].Sublist
          renderThreadEvents) hrender) hn
  have h2 : pos t .recvReady < pos t .showWindow :=
    pos_lt_of_sublist
      (List.Sublist.trans
        (by decide : [Ev.recvReady, Ev.showWindow].Sublist buildMainEvents)
        hmain) hn
  have h3 : pos t .sendReady < pos t .showWindow :=
    Nat.lt_trans hchan h2
  exact ⟨Nat.lt_trans h1 h3, h3⟩

/-- Witness for C1 at the canonical interleaving the source produces. -/
theorem c1_startup_handshake_witness :
    pos [Ev.guardCheck, .createWindow, .registerWindow, .installCallbacks,
        .spawnRender, .renderThreadName, .makeContextCurrent, .loadGl,
        .renderInitDone, .sendReady, .recvReady, .showWindow,
        .enterRenderLoop] .renderInitDone
      < pos [Ev.guardCheck, .createWindow, .registerWindow,
        .installCallbacks, .spawnRender, .renderThreadName,
        .makeContextCurrent, .loadGl, .renderInitDone, .sendReady,
        .recvReady, .showWindow, .enterRenderLoop] .showWindow
    ∧ pos [Ev.guardCheck, .createWindow, .registerWindow, .installCallbacks,
        .spawnRender, .renderThreadName, .makeContextCurrent, .loadGl,
        .renderInitDone, .sendReady, .recvReady, .showWindow,
        .enterRenderLoop] .sendReady
      < pos [Ev.guardCheck, .createWindow, .registerWindow,
        .installCallbacks, .spawnRender, .renderThreadName,
        .makeContextCurrent, .loadGl, .renderInitDone, .sendReady,
        .recvReady, .showWindow, .enterRenderLoop] .showWindow :=
  c1_startup_handshake _ (by unfold ValidBuildTrace; decide)

end GLE
